import Mathlib

/-!
Verification development for the MemGPT hierarchical memory manager.

This file gives a shallow embedding of the memory subsystem and agent control
loop of the repository:

* `src/utils/token_counter.py`  — `TokenCounter`
* `src/memory/core_memory.py`   — `CoreMemory`
* `src/memory/queue_manager.py` — `QueueManager`
* `src/functions/executor.py`   — `FunctionExecutor`
* `src/agents/agent.py`         — `MemGPTAgent.step` (the heartbeat loop)

Modelling conventions:

* Python strings are Lean `String`s; Python `str` operations (`in`,
  `str.replace(old, new, 1)`, slicing, `upper`, `join`) are defined below on
  `List Char` / `String` in a way that matches CPython semantics on code
  points.
* Python floats used for the queue thresholds (`0.7`, `0.95`) are modelled as
  exact rationals (`ℚ`); all concrete inputs in witnesses/counterexamples use
  dyadic rationals so the float and rational comparisons agree.
* The tokenizer (`tiktoken`, an external library, out of scope per the spec:
  "the tokenizer — a pluggable counter") is a parameter: an `Encoding` with
  `encode`/`decode`, or a bare counting function `cnt : String → ℕ` where only
  counts matter.
* The LLM client, likewise external, is a parameter: a sequence of outcomes,
  one per call of the heartbeat loop.
* Dynamic Python values appearing as tool-call arguments are modelled by the
  inductive `PyVal`; Python exceptions raised inside handlers by `Except PyExc`.
-/

set_option maxHeartbeats 1000000
set_option maxRecDepth 100000

namespace MemGPT

/-! ## String utilities modelling Python `str` operations -/

/-- Index of the first (leftmost) occurrence of `pat` in `s`, scanning left to
right, or `none` if `pat` does not occur.  Models the search underlying
Python's `in` and `str.replace(old, new, 1)`.  The empty pattern occurs at
index 0, as in Python. -/
def firstOcc (pat : List Char) : List Char → Option Nat
  | [] => if pat.isPrefixOf ([] : List Char) then some 0 else none
  | c :: s => if pat.isPrefixOf (c :: s) then some 0 else (firstOcc pat s).map (· + 1)

/-- Python `pat in s` on lists of characters. -/
def strContainsL (s pat : List Char) : Bool := (firstOcc pat s).isSome

/-- Python `pat in s` (substring containment) on strings. -/
def strContains (s pat : String) : Bool := strContainsL s.data pat.data

/-- Python `s.replace(old, new, 1)` on lists of characters: replace the first
occurrence of `old` by `new`; if `old` does not occur, return `s` unchanged.
For `old = []` Python prepends `new`, which is the `i = 0` case here. -/
def pyReplaceFirstL (s old new : List Char) : List Char :=
  match firstOcc old s with
  | none => s
  | some i => s.take i ++ new ++ s.drop (i + old.length)

/-- Python `s.replace(old, new, 1)` on strings. -/
def pyReplaceFirst (s old new : String) : String :=
  ⟨pyReplaceFirstL s.data old.data new.data⟩

/-- A single-quote character, used to reproduce Python error-message literals. -/
def sq : String := String.singleton (Char.ofNat 39)

/-- An occurrence of `pat` in `s` at index `i`. -/
def occursAt (s pat : List Char) (i : Nat) : Prop :=
  i ≤ s.length ∧ pat.isPrefixOf (s.drop i) = true

/-! ## Token counter (`src/utils/token_counter.py`)

`TokenCounter` wraps a tiktoken encoding chosen by model name.  The encoding
is external, so it is a parameter here. -/

/-- A pluggable tokenizer: `encode` maps text to a token list, `decode` maps a
token list back to text.  Models the tiktoken encoding object held by
`TokenCounter`. -/
structure Encoding where
  encode : String → List Nat
  decode : List Nat → String

/-- `TokenCounter.count_tokens`: `0` for falsy (empty) text, otherwise the
length of the encoded token list. -/
def count_tokens (E : Encoding) (text : String) : Nat :=
  if text = "" then 0 else (E.encode text).length

/-- `TokenCounter.truncate_text`: empty text maps to `""`; if the token list
fits in `max_tokens` return the text unchanged; otherwise decode the first
`max_tokens` tokens. -/
def truncate_text (E : Encoding) (text : String) (max_tokens : Nat) : String :=
  if text = "" then ""
  else
    let tokens := E.encode text
    if tokens.length ≤ max_tokens then text
    else E.decode (tokens.take max_tokens)

/-- A value inside a list-valued message field, as inspected by
`count_message_tokens`: a string is counted directly, a dict is counted via
its `str(...)` representation (carried here as the `reprS` string), anything
else is skipped by the code. -/
inductive JItem where
  | istr (s : String)
  | idict (reprS : String)
  | iother
deriving DecidableEq

/-- A message-field value as inspected by `count_message_tokens`: a string, a
list of items, a dict (represented by its `str(...)` rendering), or a value of
any other type (skipped by the code). -/
inductive JVal where
  | vstr (s : String)
  | vlist (items : List JItem)
  | vdict (reprS : String)
  | vother
deriving DecidableEq

/-- Token contribution of one item of a list-valued field
(`count_message_tokens`, inner `for item in value` loop). -/
def itemTokens (cnt : String → Nat) : JItem → Nat
  | .istr s => cnt s
  | .idict r => cnt r
  | .iother => 0

/-- Token contribution of one field value
(`count_message_tokens`, `for key, value in message.items()` body). -/
def fieldTokens (cnt : String → Nat) : JVal → Nat
  | .vstr s => cnt s
  | .vlist items => items.foldl (fun a it => a + itemTokens cnt it) 0
  | .vdict r => cnt r
  | .vother => 0

/-- `TokenCounter.count_message_tokens`, with `cnt` standing for
`count_tokens`: returns `0` for an empty list; otherwise accumulates, per
message, a base overhead of 4 plus the per-field contributions, and finally
adds the reply primer of 2. A message is its list of `(key, value)` fields in
dict iteration order. -/
def count_message_tokens (cnt : String → Nat)
    (messages : List (List (String × JVal))) : Nat :=
  if messages.isEmpty then 0
  else
    let n := messages.foldl
      (fun acc m => m.foldl (fun a kv => a + fieldTokens cnt kv.2) (acc + 4)) 0
    n + 2

/-- Closed form of a message's contribution: 4 plus the sum of its field
contributions. -/
def messageFieldsTokens (cnt : String → Nat) (m : List (String × JVal)) : Nat :=
  4 + (m.map (fun kv => fieldTokens cnt kv.2)).sum

/-! ## Core memory (`src/memory/core_memory.py`)

`CoreMemory.sections` is a Python dict `section name → text`; dicts preserve
insertion order, so it is modelled as an association list with unique keys.
Updates rewrite the value in place, preserving order, which is what
`self.sections[section] = ...` does for an existing key. -/

/-- The working-context sections: an insertion-ordered `name → text` map. -/
abbrev CM := List (String × String)

/-- Python `section in self.sections` for a string key. -/
def hasSection (cm : CM) (sec : String) : Bool :=
  (List.any cm (fun p => p.1 == sec))

/-- Python `self.sections.get(section)`. -/
def getSection (cm : CM) (sec : String) : Option String :=
  (List.find? (fun p => p.1 == sec) cm).map (·.2)

/-- Python `self.sections[section] = v` for an existing key: rewrite the value,
keep insertion order. -/
def setSection (cm : CM) (sec v : String) : CM :=
  List.map (fun p => if p.1 == sec then (p.1, v) else p) cm

/-- `CoreMemory.__init__` default sections. -/
def defaultSections : CM :=
  [("persona", "I am MemGPT, an intelligent memory management system."),
   ("human", "No information about the user yet.")]

/-- `CoreMemory.append`: returns `False` when the section does not exist,
otherwise concatenates `"\n" + content` onto the section. -/
def CoreMemory.append (cm : CM) (sec content : String) : CM × Bool :=
  if ¬ hasSection cm sec then (cm, false)
  else (setSection cm sec (((getSection cm sec).getD "") ++ "\n" ++ content), true)

/-- `CoreMemory.replace`: `False` when the section does not exist; `False`
(and no modification) when `old_content` does not occur in the section;
otherwise replace the first occurrence of `old_content` by `new_content`. -/
def CoreMemory.replace (cm : CM) (sec old new : String) : CM × Bool :=
  if ¬ hasSection cm sec then (cm, false)
  else
    let current := (getSection cm sec).getD ""
    if ¬ strContains current old then (cm, false)
    else (setSection cm sec (pyReplaceFirst current old new), true)

/-! ## Queue manager (`src/memory/queue_manager.py`)

A queue message is a dict `{'role', 'content'}` plus an optional `'metadata'`
key (added by `add_message` only when the metadata argument is truthy).  The
metadata dict itself is opaque to the queue manager and the token counter —
only its `str(...)` rendering is ever consumed — so it is carried as that
rendering.  The recall storage handle (`SQLiteRecallStorage`, whose
`insert_message` appends one row per call with an autoincremented id) is
modelled as the append-only list `recall`.  The summarization callback is
`Option (String → Option String)`: `none` for no callback; a callback
returning `none` models the callback raising (the `except` branch). -/

/-- A message in the FIFO queue. -/
structure Message where
  role : String
  content : String
  metadata : Option String
deriving DecidableEq

/-- The message dict as the list of `(key, value)` fields seen by
`count_message_tokens`, in dict insertion order. -/
def Message.fields (m : Message) : List (String × JVal) :=
  [("role", JVal.vstr m.role), ("content", JVal.vstr m.content)] ++
    (match m.metadata with
     | some d => [("metadata", JVal.vdict d)]
     | none => [])

/-- The queue manager's state: configuration plus the queue and the recall
store it writes evictions to. -/
structure QM where
  max_tokens : Nat
  warning_threshold : ℚ
  flush_threshold : ℚ
  summarize_func : Option (String → Option String)
  queue : List Message
  recallLog : List Message

/-- The slot-0 message installed by `QueueManager.__init__` (and by
`clear_queue(keep_summary=False)`). -/
def initialSummaryMsg : Message :=
  ⟨"system", "Conversation summary: No previous interactions.", none⟩

/-- `QueueManager.__init__`: fresh queue holding only the summary slot. -/
def QM.init (maxTokens : Nat) (wt ft : ℚ)
    (sumF : Option (String → Option String)) : QM :=
  { max_tokens := maxTokens, warning_threshold := wt, flush_threshold := ft,
    summarize_func := sumF, queue := [initialSummaryMsg], recallLog := [] }

/-- The warning injected by `_check_memory_pressure`. -/
def pressureWarningMsg : Message :=
  ⟨"system", "System Alert: Memory pressure detected. Save important data immediately.", none⟩

/-- The check guarding duplicate injection: the message has role `system` and
its content contains `"Memory pressure"`. -/
def isPressureWarning (m : Message) : Bool :=
  m.role == "system" && strContains m.content "Memory pressure"

/-- Python `self.queue and self.queue[-1].get('role') == 'system' and
'Memory pressure' in self.queue[-1].get('content', '')`. -/
def lastIsWarning (q : List Message) : Bool :=
  match q.getLast? with
  | some m => isPressureWarning m
  | none => false

/-- Token count of the queue per `TokenCounter.count_message_tokens`, with
`cnt` the string counter. -/
def queueTokens (cnt : String → Nat) (q : List Message) : Nat :=
  count_message_tokens cnt (q.map Message.fields)

/-- `QueueManager.get_queue_size`. -/
def QM.size (cnt : String → Nat) (qm : QM) : Nat := queueTokens cnt qm.queue

/-- `QueueManager._format_messages_for_summary`: lines `ROLE: content` joined
by newlines. -/
def format_messages_for_summary (messages : List Message) : String :=
  String.intercalate "\n" (messages.map (fun m => m.role.toUpper ++ ": " ++ m.content))

/-- The fallback summary used when no callback is given or the callback
raises: `f"{current_summary}\n\nRecent activity: {evicted_text[:500]}..."`. -/
def fallbackSummary (current_summary evicted_text : String) : String :=
  current_summary ++ "\n\nRecent activity: " ++ evicted_text.take 500 ++ "..."

/-- The summarization prompt built by `_generate_summary`. -/
def summaryPrompt (current_summary evicted_text : String) : String :=
  "Summarize the following interaction based on the previous summary.\n" ++
  "Focus on key facts, decisions, and important information.\n\n" ++
  "Previous Summary:\n" ++ current_summary ++ "\n\n" ++
  "New Interactions to Incorporate:\n" ++ evicted_text ++ "\n\n" ++
  "Generate a concise updated summary:"

/-- `QueueManager._generate_summary`: call the callback on the prompt if
present, falling back to concatenation when absent or raising. -/
def generate_summary (sumF : Option (String → Option String))
    (current_summary evicted_text : String) : String :=
  match sumF with
  | some f =>
    match f (summaryPrompt current_summary evicted_text) with
    | some s => s
    | none => fallbackSummary current_summary evicted_text
  | none => fallbackSummary current_summary evicted_text

/-- `num_to_evict = max(1, (len(self.queue) - 1) // 3)`. -/
def num_to_evict (qm : QM) : Nat := max 1 ((qm.queue.length - 1) / 3)

/-- The new slot-0 summary text computed during `_evict_messages`: the prior
summary (`queue[0]['content']`) combined with the formatted text of
`queue[1 : num_to_evict + 1]`. -/
def evictSummary (qm : QM) : String :=
  generate_summary qm.summarize_func ((qm.queue.headD initialSummaryMsg).content)
    (format_messages_for_summary ((qm.queue.drop 1).take (num_to_evict qm)))

/-- `QueueManager._evict_messages`: no-op when only the summary remains;
otherwise persist `queue[1 : k+1]` to recall storage in order and rebuild the
queue as `[new summary] ++ queue[k+1 :]` where `k = num_to_evict`. -/
def QM.evict_messages (qm : QM) : QM :=
  if qm.queue.length ≤ 1 then qm
  else
    { qm with
      queue := ⟨"system", evictSummary qm, none⟩ :: qm.queue.drop (num_to_evict qm + 1),
      recallLog := qm.recallLog ++ (qm.queue.drop 1).take (num_to_evict qm) }

/-- `QueueManager._check_memory_pressure`: compute the current token count;
above the warning threshold and with the last slot not already a warning,
append the warning and return `True` (skipping the flush check); otherwise
evict when at or above the flush threshold; return `False`. -/
def QM.check_memory_pressure (cnt : String → Nat) (qm : QM) : QM × Bool :=
  let current_tokens := queueTokens cnt qm.queue
  if (qm.max_tokens : ℚ) * qm.warning_threshold < (current_tokens : ℚ) ∧
      lastIsWarning qm.queue = false then
    ({ qm with queue := qm.queue ++ [pressureWarningMsg] }, true)
  else if (qm.max_tokens : ℚ) * qm.flush_threshold ≤ (current_tokens : ℚ) then
    (qm.evict_messages, false)
  else (qm, false)

/-- `QueueManager.add_message`: append the message (with `metadata` key only
when truthy, carried here as `Option`), then run the pressure check. -/
def QM.add_message (cnt : String → Nat) (qm : QM) (role content : String)
    (metadata : Option String) : QM × Bool :=
  QM.check_memory_pressure cnt { qm with queue := qm.queue ++ [⟨role, content, metadata⟩] }

/-- `QueueManager.clear_queue`. -/
def QM.clear_queue (qm : QM) (keep_summary : Bool) : QM :=
  if keep_summary ∧ qm.queue ≠ [] then
    { qm with queue := [qm.queue.headD initialSummaryMsg] }
  else
    { qm with queue := [initialSummaryMsg] }

/-- `QueueManager.set_summary`: overwrite slot 0 (or create it when the queue
is empty). -/
def QM.set_summary (qm : QM) (s : String) : QM :=
  match qm.queue with
  | [] => { qm with queue := [⟨"system", s, none⟩] }
  | _ :: rest => { qm with queue := ⟨"system", s, none⟩ :: rest }

/-- `QueueManager.get_summary`. -/
def QM.get_summary (qm : QM) : String :=
  match qm.queue with
  | [] => ""
  | m :: _ => m.content

/-- One queue-manager operation, for stating invariants over arbitrary
operation sequences. -/
inductive QOp where
  | add (role content : String) (metadata : Option String)
  | clear (keep_summary : Bool)
  | setSummary (s : String)
  | evict

/-- Apply one operation to the queue manager. -/
def applyOp (cnt : String → Nat) (qm : QM) : QOp → QM
  | .add r c md => (qm.add_message cnt r c md).1
  | .clear k => qm.clear_queue k
  | .setSummary s => qm.set_summary s
  | .evict => qm.evict_messages

/-- Apply a sequence of operations. -/
def applyOps (cnt : String → Nat) (qm : QM) (ops : List QOp) : QM :=
  ops.foldl (applyOp cnt) qm

/-- The role an operation adds, if it is an `add`. -/
def opRole : QOp → Option String
  | .add r _ _ => some r
  | _ => none

/-! ## Function executor (`src/functions/executor.py`)

Tool-call arguments arrive as a JSON-decoded Python dict `Dict[str, Any]` and
are splatted into the handler (`handler(**arguments)`).  `PyVal` models the
dynamic values; `PyExc` the exceptions a handler can raise (`TypeError` is
caught separately from other exceptions by `execute`). -/

/-- A dynamic Python value as it occurs in tool-call arguments and handler
outputs: a string, an int, `None`, or a dict. -/
inductive PyVal where
  | vstr (s : String)
  | vint (n : Int)
  | vnone
  | vdict (fields : List (String × PyVal))

/-- Python exceptions relevant to `FunctionExecutor.execute`: `TypeError`
(caught by the first `except`) and `ValueError`/anything else (caught by the
generic `except Exception`). -/
inductive PyExc where
  | typeError (msg : String)
  | valueError (msg : String)

/-- Python `f"{v}"` / `str(v)`.  The rendering of a dict is abbreviated: no
claim in this development depends on it, it only feeds opaque queue text. -/
def pyStr : PyVal → String
  | .vstr s => s
  | .vint n => toString n
  | .vnone => "None"
  | .vdict _ => "<dict>"

/-- Python truthiness for the values above (`if output:`). -/
def pyTruthy : PyVal → Bool
  | .vstr s => s ≠ ""
  | .vint n => n ≠ 0
  | .vnone => false
  | .vdict fs => ¬ fs.isEmpty

/-- A tool-call argument dict (unique keys, JSON object order). -/
abbrev Args := List (String × PyVal)

/-- `d.get(k, default)` on a dict value. -/
def dictGet (v : Option PyVal) (k : String) : PyVal :=
  match v with
  | some (.vdict fs) => (((fs.find? (fun p => p.1 == k))).map (·.2)).getD (.vstr "")
  | _ => .vstr ""

/-- The executor's dispatch-table keys (`self.function_map`). -/
def functionNames : List String :=
  ["send_message", "core_memory_append", "core_memory_replace",
   "archival_memory_insert", "archival_memory_search", "conversation_search"]

/-- Required keyword parameters of each handler. -/
def requiredParams : String → List String
  | "send_message" => ["content"]
  | "core_memory_append" => ["section", "content"]
  | "core_memory_replace" => ["section", "old_content", "new_content"]
  | "archival_memory_insert" => ["content"]
  | "archival_memory_search" => ["query"]
  | "conversation_search" => ["query"]
  | _ => []

/-- Parameters with a default (`page=0`). -/
def optionalParams : String → List String
  | "archival_memory_search" => ["page"]
  | "conversation_search" => ["page"]
  | _ => []

/-- Whether `handler(**arguments)` binds: every required parameter present and
no unexpected keyword.  A failure raises `TypeError` in Python. -/
def argsBindOk (name : String) (args : Args) : Bool :=
  (requiredParams name).all (fun p => (args.lookup p).isSome) &&
  args.all (fun kv => (requiredParams name ++ optionalParams name).contains kv.1)

/-- Executor-visible state: the core-memory sections plus the storage
backends.  The archival store counts inserted documents (ChromaDB ids are
opaque; only their existence matters here).  The two `search` backends
(`ChromaArchivalStorage.search`, `SQLiteRecallStorage.search_messages`) run in
external engines and are abstracted as total functions from query and offset
to an already-formatted results value. -/
structure ExecState where
  sections : CM
  archivalCount : Nat
  archivalSearch : PyVal → PyVal → PyVal
  recallSearch : PyVal → PyVal → PyVal

/-- `CoreMemory.append` as executed on dynamic arguments: a dict-typed section
key is unhashable (`TypeError` from `in`); any other non-string key is simply
not in the dict; the content is stringified by the f-string. -/
def coreAppendPy (cm : CM) (sec content : PyVal) : Except PyExc (CM × Bool) :=
  match sec with
  | .vdict _ => .error (.typeError "unhashable type: dict")
  | .vstr s =>
    if hasSection cm s then
      .ok (setSection cm s (((getSection cm s).getD "") ++ "\n" ++ pyStr content), true)
    else .ok (cm, false)
  | _ => .ok (cm, false)

/-- `CoreMemory.replace` as executed on dynamic arguments, following the
statement order of the source: section membership, then `old_content in
current` (a non-string left operand raises `TypeError`), then
`current.replace(old, new, 1)` (a non-string replacement raises
`TypeError`). -/
def coreReplacePy (cm : CM) (sec old new : PyVal) : Except PyExc (CM × Bool) :=
  match sec with
  | .vdict _ => .error (.typeError "unhashable type: dict")
  | .vstr s =>
    if hasSection cm s then
      match old with
      | .vstr o =>
        let current := (getSection cm s).getD ""
        if strContains current o then
          match new with
          | .vstr n => .ok (setSection cm s (pyReplaceFirst current o n), true)
          | _ => .error (.typeError "replace() argument 2 must be str")
        else .ok (cm, false)
      | _ => .error (.typeError "in <string> requires string as left operand")
    else .ok (cm, false)
  | _ => .ok (cm, false)

/-- `page * self.page_size` with `page_size = 5`: Python multiplies an int, or
repeats a string, and raises `TypeError` otherwise. -/
def mulPageSize (page : PyVal) : Except PyExc PyVal :=
  match page with
  | .vint n => .ok (.vint (n * 5))
  | .vstr s => .ok (.vstr (s ++ s ++ s ++ s ++ s))
  | _ => .error (.typeError "unsupported operand type for *")

/-- Run the named handler on bound arguments.  Mirrors the `self._...`
methods; arguments are first bound as by `handler(**arguments)`.  Search
results come from the abstracted backends; `results_count` and the result
mapping are folded into the backend value. -/
def runHandler (st : ExecState) (name : String) (args : Args) :
    Except PyExc (PyVal × ExecState) :=
  if ¬ argsBindOk name args then
    .error (.typeError (name ++ "() received unexpected or missing arguments"))
  else
    match name with
    | "send_message" =>
      let content := (args.lookup "content").getD .vnone
      .ok (.vdict [("status", .vstr "message_sent"), ("content", content)], st)
    | "core_memory_append" => do
      let sec := (args.lookup "section").getD .vnone
      let content := (args.lookup "content").getD .vnone
      let (cm, ok) ← coreAppendPy st.sections sec content
      if ok then
        .ok (.vdict [("status", .vstr "success"),
                     ("message", .vstr ("Appended to " ++ pyStr sec)),
                     ("section", sec)], { st with sections := cm })
      else
        .error (.valueError ("Section " ++ sq ++ pyStr sec ++ sq ++ " does not exist"))
    | "core_memory_replace" => do
      let sec := (args.lookup "section").getD .vnone
      let old := (args.lookup "old_content").getD .vnone
      let new := (args.lookup "new_content").getD .vnone
      let (cm, ok) ← coreReplacePy st.sections sec old new
      if ok then
        .ok (.vdict [("status", .vstr "success"),
                     ("message", .vstr ("Replaced content in " ++ pyStr sec)),
                     ("section", sec)], { st with sections := cm })
      else
        .error (.valueError
          ("Could not find old_content in section " ++ sq ++ pyStr sec ++ sq))
    | "archival_memory_insert" =>
      .ok (.vdict [("status", .vstr "success"),
                   ("message", .vstr "Content inserted into archival memory"),
                   ("document_id", .vint st.archivalCount)],
           { st with archivalCount := st.archivalCount + 1 })
    | "archival_memory_search" => do
      let q := (args.lookup "query").getD .vnone
      let page := (args.lookup "page").getD (.vint 0)
      let offset ← mulPageSize page
      .ok (.vdict [("status", .vstr "success"), ("query", q), ("page", page),
                   ("results", st.archivalSearch q offset)], st)
    | "conversation_search" => do
      let q := (args.lookup "query").getD .vnone
      let page := (args.lookup "page").getD (.vint 0)
      let offset ← mulPageSize page
      .ok (.vdict [("status", .vstr "success"), ("query", q), ("page", page),
                   ("results", st.recallSearch q offset)], st)
    | _ => .error (.valueError "unreachable: name checked against function_map")

/-- `FunctionExecutor.execute`: unknown names are rejected up front;
`TypeError` (argument binding or inside a handler) yields the
"Invalid arguments" error; any other exception yields the
"Error executing" error; otherwise success.  Exceptions never propagate. -/
def FunctionExecutor.execute (st : ExecState) (name : String) (args : Args) :
    (String × String × Option PyVal) × ExecState :=
  if ¬ functionNames.contains name then
    (("error", "Unknown function: " ++ name, none), st)
  else
    match runHandler st name args with
    | .ok (out, st') =>
      (("success", "Function " ++ name ++ " executed successfully", some out), st')
    | .error (.typeError m) =>
      (("error", "Invalid arguments for " ++ name ++ ": " ++ m, none), st)
    | .error (.valueError m) =>
      (("error", "Error executing " ++ name ++ ": " ++ m, none), st)

/-- `FunctionExecutor.should_continue_heartbeat`: only `send_message` stops
the heartbeat. -/
def should_continue_heartbeat (name : String) : Bool :=
  name != "send_message"

/-- `FunctionExecutor.format_function_result`.  The `json.dumps` rendering of
a dict output is abbreviated via `pyStr`; only the presence and shape of the
block matter to any claim. -/
def format_function_result (name status msg : String) (output : Option PyVal) : String :=
  let base := "Function: " ++ name ++ "\n" ++ "Status: " ++ status ++ "\n" ++
    "Message: " ++ msg ++ "\n"
  match output with
  | some out => if pyTruthy out then base ++ "Output: " ++ pyStr out else base
  | none => base

/-! ## Agent heartbeat loop (`src/agents/agent.py`)

The LLM client is external; one turn of `MemGPTAgent.step` makes a sequence
of `chat.completions.create` calls.  The model abstracts the client as a
function `llm : ℕ → LLMOutcome` giving the outcome of the `i`-th call (the
prompt assembled by `_build_context` does not influence any claim, so the
outcome sequence is simply indexed by call number).  `parse_function_call` is
absorbed into `LLMResponse.toolCall` (it returns the name and JSON-decoded
arguments, or `none`). -/

/-- A parsed LLM response: finish reason, optional prose content, optional
tool call (name and decoded arguments). -/
structure LLMResponse where
  finishReason : String
  content : Option String
  toolCall : Option (String × Args)

/-- Outcome of one LLM call: a transport error (the `except` branch around
`create`) or a response. -/
inductive LLMOutcome where
  | err (msg : String)
  | ok (resp : LLMResponse)

/-- The structured outcome dict returned by `MemGPTAgent.step`; absent dict
keys are `none`. -/
structure StepResult where
  status : String
  message : Option PyVal := none
  thought : Option String := none
  functionName : Option String := none
  iterations : Option Nat := none

/-- The agent-owned state the heartbeat loop touches: the queue manager and
the executor state. -/
structure AgentState where
  qm : QM
  exec : ExecState

/-- `max_iterations = 10  # Prevent infinite loops`. -/
def max_iterations : Nat := 10

/-- The dict returned after the `while` loop exits (by exhaustion or by
`break`). -/
def maxIterationsResult (iteration : Nat) : StepResult :=
  { status := "max_iterations",
    message := some (.vstr "Maximum iterations reached in heartbeat loop"),
    iterations := some iteration }

/-- The body of the heartbeat `while` loop of `MemGPTAgent.step`, written with
structural fuel: `fuel = max_iterations - iteration`, so `fuel = 0` is exactly
the loop condition `iteration < max_iterations` failing.  The third component
of the result counts LLM calls performed (instrumentation only; it influences
nothing).  A failed `send_message` hits the `should_continue_heartbeat` break
and falls through to the `max_iterations` return, as in the source. -/
def heartbeatAux (cnt : String → Nat) (llm : Nat → LLMOutcome) :
    Nat → AgentState → Nat → StepResult × AgentState × Nat
  | 0, st, iteration => (maxIterationsResult iteration, st, 0)
  | fuel + 1, st, iteration =>
    let it := iteration + 1
    match llm iteration with
    | .err e =>
      let errorMsg := "LLM API Error: " ++ e
      let qm' := (st.qm.add_message cnt "system" errorMsg none).1
      ({ status := "error", message := some (.vstr errorMsg) },
       { st with qm := qm' }, 1)
    | .ok resp =>
      match resp.toolCall with
      | some (fname, args) =>
        let er := FunctionExecutor.execute st.exec fname args
        let status := er.1.1
        let msg := er.1.2.1
        let output := er.1.2.2
        let result_text := format_function_result fname status msg output
        let qm1 := (st.qm.add_message cnt "assistant"
          ("[Function Call: " ++ fname ++ "(" ++ pyStr (.vdict args) ++ ")]") none).1
        let qm2 := (qm1.add_message cnt "function" result_text none).1
        let st' : AgentState := { qm := qm2, exec := er.2 }
        if fname = "send_message" ∧ status = "success" then
          ({ status := "success", message := some (dictGet output "content"),
             functionName := some "send_message", iterations := some it }, st', 1)
        else if should_continue_heartbeat fname = false then
          (maxIterationsResult it, st', 1)
        else
          let r := heartbeatAux cnt llm fuel st' it
          (r.1, r.2.1, r.2.2 + 1)
      | none =>
        let content := match resp.content with
          | some c => if c = "" then "[No response]" else c
          | none => "[No response]"
        let qm' := (st.qm.add_message cnt "assistant" content none).1
        let st' : AgentState := { st with qm := qm' }
        if resp.finishReason = "stop" then
          ({ status := "no_message",
             message := some (.vstr "Agent finished without sending a message"),
             thought := some content, iterations := some it }, st', 1)
        else
          let r := heartbeatAux cnt llm fuel st' it
          (r.1, r.2.1, r.2.2 + 1)

/-- `MemGPTAgent.step`: enqueue the user message when truthy, then run the
heartbeat loop from iteration 0. -/
def MemGPTAgent.step (cnt : String → Nat) (llm : Nat → LLMOutcome)
    (st : AgentState) (user_message : Option String) :
    StepResult × AgentState × Nat :=
  match user_message with
  | some m =>
    if m = "" then heartbeatAux cnt llm max_iterations st 0
    else
      heartbeatAux cnt llm max_iterations
        { st with qm := (st.qm.add_message cnt "user" m none).1 } 0
  | none => heartbeatAux cnt llm max_iterations st 0

/-- The final LLM call of a run ended with a `send_message` tool call whose
argument binding fails (so `execute` reports an error, not success). -/
def failedSendAt (llm : Nat → LLMOutcome) (i : Nat) : Prop :=
  ∃ resp args, llm i = LLMOutcome.ok resp ∧
    resp.toolCall = some ("send_message", args) ∧
    argsBindOk "send_message" args = false

/-! ## Concrete instances used in witnesses and counterexamples

`String.length` serves as a concrete pluggable counter (each code point one
token — the `count_tokens` of `charE` below, except on the empty string where
both give 0). -/

/-- Decode one token of the toy encoding: token 2 is the merged chunk `"ab"`,
token `c + 3` is the single character `c`, others decode to nothing. -/
def toyDecodeTok (n : Nat) : String :=
  if n = 2 then "ab"
  else if 3 ≤ n then String.singleton (Char.ofNat (n - 3)) else ""

/-- Decode of the toy encoding: concatenate the per-token chunks. -/
def toyDecode : List Nat → String
  | [] => ""
  | t :: ts => toyDecodeTok t ++ toyDecode ts

/-- Encode of the toy encoding: the exact string `"ab"` is the single merged
token, everything else encodes one character per token.  A valid BPE-style
encoder: decoding inverts it, and context changes token boundaries. -/
def toyEncode (s : String) : List Nat :=
  if s = "ab" then [2] else s.data.map (fun c => c.toNat + 3)

/-- The toy BPE-style tokenizer. -/
def toyE : Encoding := ⟨toyEncode, toyDecode⟩

/-- One token per character. -/
def charEncode (s : String) : List Nat := s.data.map Char.toNat

/-- Inverse of `charEncode`. -/
def charDecode (l : List Nat) : String := ⟨l.map Char.ofNat⟩

/-- The character-level tokenizer. -/
def charE : Encoding := ⟨charEncode, charDecode⟩

/-- A fresh executor state: default sections, empty archival store, storage
search backends returning nothing. -/
def execState0 : ExecState :=
  { sections := defaultSections, archivalCount := 0,
    archivalSearch := fun _ _ => .vnone, recallSearch := fun _ _ => .vnone }

/-- A fresh agent state with the constructor defaults (`max_tokens = 8000`,
thresholds `0.7` and `0.95`). -/
def agentState0 : AgentState :=
  { qm := QM.init 8000 (7/10) (19/20) none, exec := execState0 }

/-- C1: a fresh queue manager with `max_tokens = 64`, `warning = 1/4`,
`flush = 1/2` (dyadic, so float and rational agree). -/
def qmC1a : QM := QM.init 64 (1/4) (1/2) none

/-- C1: a small queue just below eviction, with a short summary; the echoing
summarize callback (it returns its whole prompt) makes slot 0 grow on
eviction, as the fallback concatenation also would. -/
def qmC1b : QM :=
  { QM.init 64 (1/4) (1/2) (some (fun p => some p)) with
    queue := [⟨"system", "A", none⟩, ⟨"user", "b", none⟩] }

/-- C2: a fresh queue manager whose flush threshold is far away
(`max_tokens = 1000`, `warning = 1/10`, `flush = 9/10`). -/
def qmC2 : QM := QM.init 1000 (1/10) (9/10) none

/-- C3/C1 witnesses: a four-slot queue with a summarizer returning the short
summary `"S"`. -/
def qmC3 : QM :=
  { QM.init 100000 (7/10) (19/20) (some (fun _ => some "S")) with
    queue := [⟨"system", "Old summary", none⟩, ⟨"user", "hello", none⟩,
              ⟨"assistant", "hi there", none⟩, ⟨"user", "ok", none⟩] }

/-- C5: an LLM that always calls `send_message` with a wrongly named argument
(binding fails, so `execute` reports an error). -/
def llmBadSend : Nat → LLMOutcome :=
  fun _ => .ok ⟨"tool_calls", none, some ("send_message", [("message_text", .vstr "hi")])⟩

/-- C2: a 50-character user message, enough to push `qmC2` past its warning
threshold of 100 tokens under the character-level counter. -/
def msg50 : String := "aaaaaaaaaaaaaaaaaaaaaaaaaaaaaaaaaaaaaaaaaaaaaaaaaa"

/-- C4: a short operation sequence containing no system-role `add`. -/
def opsW : List QOp :=
  [.add "user" "hi" none, .add "assistant" "hello" none, .setSummary "greeted",
   .clear true, .evict]

/-! # Theorems -/

/-! ## Generic helper lemmas -/

theorem foldl_add_map {α : Type} (f : α → Nat) :
    ∀ (l : List α) (a : Nat),
      l.foldl (fun acc x => acc + f x) a = a + (l.map f).sum := by
  intro l
  induction l with
  | nil => intro a; simp
  | cons x xs ih => intro a; simp [List.foldl_cons, ih, Nat.add_assoc]

/-- Closed form of `count_message_tokens`: 0 on the empty list, otherwise the
sum of the per-message contributions plus the reply primer of 2. -/
theorem count_message_tokens_eq (cnt : String → Nat)
    (messages : List (List (String × JVal))) :
    count_message_tokens cnt messages =
      if messages.isEmpty then 0
      else (messages.map (messageFieldsTokens cnt)).sum + 2 := by
  have aux : ∀ (l : List (List (String × JVal))) (acc : Nat),
      l.foldl (fun acc m => m.foldl (fun a kv => a + fieldTokens cnt kv.2) (acc + 4)) acc
        = acc + (l.map (messageFieldsTokens cnt)).sum := by
    intro l
    induction l with
    | nil => intro acc; simp
    | cons x xs ih =>
      intro acc
      simp only [List.foldl_cons, List.map_cons, List.sum_cons]
      rw [foldl_add_map (fun kv => fieldTokens cnt kv.2) x (acc + 4), ih]
      simp [messageFieldsTokens]
      omega
  unfold count_message_tokens
  rcases messages with _ | ⟨m, ms⟩
  · rfl
  · simp [aux]

/-- Per-message token contribution of a queue message. -/
def messageTokens (cnt : String → Nat) (m : Message) : Nat :=
  messageFieldsTokens cnt m.fields

theorem messageTokens_eq (cnt : String → Nat) (m : Message) :
    messageTokens cnt m =
      4 + cnt m.role + cnt m.content +
        (match m.metadata with | some d => cnt d | none => 0) := by
  rcases m with ⟨r, c, md⟩
  rcases md with _ | d <;>
    simp [messageTokens, messageFieldsTokens, Message.fields, fieldTokens] <;> omega

theorem messageTokens_ge (cnt : String → Nat) (m : Message) :
    4 ≤ messageTokens cnt m := by
  rw [messageTokens_eq]; omega

theorem messageTokens_lower (cnt : String → Nat) (m : Message) :
    4 + cnt m.role + cnt m.content ≤ messageTokens cnt m := by
  rw [messageTokens_eq]; omega

/-- Queue token count of a nonempty queue, in closed form. -/
theorem queueTokens_eq (cnt : String → Nat) (q : List Message) (h : q ≠ []) :
    queueTokens cnt q = (q.map (messageTokens cnt)).sum + 2 := by
  unfold queueTokens
  rw [count_message_tokens_eq]
  rcases q with _ | ⟨m, ms⟩
  · exact absurd rfl h
  · rw [List.map_map]
    rfl

/-! ## String-search lemmas -/

theorem isPrefixOf_append_self (l t : List Char) : l.isPrefixOf (l ++ t) = true := by
  induction l with
  | nil => simp [List.isPrefixOf]
  | cons c cs ih => simp [List.isPrefixOf, ih]

theorem firstOcc_nil_pat (s : List Char) : firstOcc [] s = some 0 := by
  cases s <;> rfl

theorem firstOcc_sound (pat : List Char) :
    ∀ (s : List Char) (i : Nat), firstOcc pat s = some i →
      i ≤ s.length ∧ pat.isPrefixOf (s.drop i) = true := by
  intro s
  induction s with
  | nil =>
    intro i h
    unfold firstOcc at h
    split at h
    · rename_i hp
      cases h
      exact ⟨Nat.le_refl 0, hp⟩
    · cases h
  | cons c cs ih =>
    intro i h
    unfold firstOcc at h
    split at h
    · rename_i hp
      cases h
      exact ⟨Nat.zero_le _, hp⟩
    · rcases Option.map_eq_some'.mp h with ⟨j, hj, hij⟩
      rcases ih j hj with ⟨hle, hp⟩
      subst hij
      exact ⟨by simpa using Nat.succ_le_succ hle, by simpa [List.drop_succ_cons] using hp⟩

theorem firstOcc_complete (pat : List Char) :
    ∀ (s : List Char) (i : Nat), pat.isPrefixOf (s.drop i) = true →
      ∃ j, firstOcc pat s = some j ∧ j ≤ i := by
  intro s
  induction s with
  | nil =>
    intro i h
    rw [List.drop_nil] at h
    refine ⟨0, ?_, Nat.zero_le _⟩
    unfold firstOcc
    cases pat with
    | nil => rfl
    | cons p ps => exact absurd h (by simp [List.isPrefixOf])
  | cons c cs ih =>
    intro i h
    unfold firstOcc
    split
    · exact ⟨0, rfl, Nat.zero_le _⟩
    · rename_i hp
      cases i with
      | zero => rw [List.drop_zero] at h; exact absurd h hp
      | succ i' =>
        rw [List.drop_succ_cons] at h
        rcases ih i' h with ⟨j, hj, hji⟩
        exact ⟨j + 1, by rw [hj]; rfl, by omega⟩

theorem strContainsL_iff (s pat : List Char) :
    strContainsL s pat = true ↔ ∃ i, occursAt s pat i := by
  unfold strContainsL occursAt
  constructor
  · intro h
    rcases Option.isSome_iff_exists.mp h with ⟨i, hi⟩
    rcases firstOcc_sound pat s i hi with ⟨h1, h2⟩
    exact ⟨i, h1, h2⟩
  · rintro ⟨i, _, hp⟩
    rcases firstOcc_complete pat s i hp with ⟨j, hj, _⟩
    simp [hj]

/-- Replacing at the unique occurrence: when every occurrence of `old` in
`a ++ old ++ b` sits at index `a.length`, the first-occurrence replacement
yields `a ++ new ++ b`. -/
theorem pyReplaceFirstL_unique (a old b new : List Char)
    (huniq : ∀ i, occursAt (a ++ old ++ b) old i → i = a.length) :
    pyReplaceFirstL (a ++ old ++ b) old new = a ++ new ++ b := by
  have hocc2 : old.isPrefixOf ((a ++ old ++ b).drop a.length) = true := by
    rw [List.append_assoc] at *
    rw [List.drop_left]
    exact isPrefixOf_append_self old b
  rcases firstOcc_complete old (a ++ old ++ b) a.length hocc2 with ⟨j, hj, _⟩
  rcases firstOcc_sound old (a ++ old ++ b) j hj with ⟨hjle, hjp⟩
  have hja : j = a.length := huniq j ⟨hjle, hjp⟩
  subst hja
  have h1 : (a ++ old ++ b).take a.length = a := by
    rw [List.append_assoc]
    exact List.take_left a (old ++ b)
  have h2 : (a ++ old ++ b).drop (a.length + old.length) = b := by
    rw [show a.length + old.length = (a ++ old).length from (List.length_append a old).symm]
    exact List.drop_left (a ++ old) b
  unfold pyReplaceFirstL
  rw [hj]
  show (a ++ old ++ b).take a.length ++ new ++ (a ++ old ++ b).drop (a.length + old.length)
    = a ++ new ++ b
  rw [h1, h2]

/-- Bounded reformulation of the unique-occurrence hypothesis, so concrete
instances can be checked by `decide`. -/
theorem occursAt_forall_iff (s pat : List Char) (k : Nat) :
    (∀ i, occursAt s pat i → i = k) ↔
      (∀ i ≤ s.length, pat.isPrefixOf (s.drop i) = true → i = k) := by
  constructor
  · intro h i hle hp
    exact h i ⟨hle, hp⟩
  · rintro h i ⟨hle, hp⟩
    exact h i hle hp

theorem hasSection_of_getSection {cm : CM} {sec txt : String}
    (h : getSection cm sec = some txt) : hasSection cm sec = true := by
  unfold getSection at h
  rcases Option.map_eq_some'.mp h with ⟨p, hp, _⟩
  have h1 := List.find?_some hp
  have h2 := List.mem_of_find?_eq_some hp
  unfold hasSection
  exact List.any_eq_true.mpr ⟨p, h2, by simpa using h1⟩

theorem str_append_nil (s : String) : s ++ "" = s := by
  cases s with
  | mk d => show String.mk (d ++ []) = String.mk d; rw [List.append_nil]

/-! ## C6 — `count_messages` closed form -/

/-- **C6 (amended).** `count_messages` returns `0` for the empty message list
(not `2`); for a non-empty list it equals the sum over messages of `4` plus
the per-field contributions (string fields counted, dict fields counted via
their stringification, list fields summing their string and dict items, other
field and item types contributing nothing), plus the final primer of `2`. -/
theorem C6_count_messages (cnt : String → Nat)
    (messages : List (List (String × JVal))) :
    count_message_tokens cnt messages =
      if messages.isEmpty then 0
      else (messages.map
        (fun m => 4 + (m.map (fun kv => fieldTokens cnt kv.2)).sum)).sum + 2 :=
  count_message_tokens_eq cnt messages

/-- **C6 (counterexample).** The empty list counts `0`, not `2`; and a
list-valued field item of non-string, non-dict type is skipped rather than
stringified and counted: the single message `[("x", [5])]` counts
`4 + 0 + 2 = 6` whatever the counter assigns to `"5"`. -/
theorem C6_counterexample :
    count_message_tokens String.length ([] : List (List (String × JVal))) = 0 ∧
    count_message_tokens String.length [[("x", JVal.vlist [JItem.iother])]] = 6 := by
  exact ⟨rfl, rfl⟩

/-! ## C8 — `truncate_text` -/

theorem toyE_roundtrip (s : String) : toyE.decode (toyE.encode s) = s := by
  show toyDecode (toyEncode s) = s
  unfold toyEncode
  split
  · rename_i h; rw [h]; rfl
  · rename_i h
    clear h
    cases s with
    | mk d =>
      show toyDecode (d.map fun c => c.toNat + 3) = String.mk d
      induction d with
      | nil => rfl
      | cons c cs ih =>
        show toyDecodeTok (c.toNat + 3) ++ toyDecode (cs.map fun c => c.toNat + 3)
          = String.mk (c :: cs)
        rw [ih]
        unfold toyDecodeTok
        rw [if_neg (by omega), if_pos (by omega)]
        have : c.toNat + 3 - 3 = c.toNat := by omega
        rw [this, Char.ofNat_toNat]
        rfl

theorem toyE_hom (l₁ l₂ : List Nat) :
    toyE.decode (l₁ ++ l₂) = toyE.decode l₁ ++ toyE.decode l₂ := by
  show toyDecode (l₁ ++ l₂) = toyDecode l₁ ++ toyDecode l₂
  induction l₁ with
  | nil =>
    rw [List.nil_append]
    show toyDecode l₂ = "" ++ toyDecode l₂
    cases toyDecode l₂ with
    | mk y => rfl
  | cons t ts ih =>
    show toyDecodeTok t ++ toyDecode (ts ++ l₂) = (toyDecodeTok t ++ toyDecode ts) ++ toyDecode l₂
    rw [ih]
    cases toyDecodeTok t with
    | mk x => cases toyDecode ts with
      | mk y => cases toyDecode l₂ with
        | mk z =>
          show String.mk (x ++ (y ++ z)) = String.mk ((x ++ y) ++ z)
          rw [List.append_assoc]

theorem charE_roundtrip (s : String) : charE.decode (charE.encode s) = s := by
  cases s with
  | mk d =>
    show String.mk ((d.map Char.toNat).map Char.ofNat) = String.mk d
    rw [List.map_map]
    congr 1
    exact List.map_congr_left (fun c _ => Char.ofNat_toNat c) |>.trans (List.map_id d)

theorem charE_hom (l₁ l₂ : List Nat) :
    charE.decode (l₁ ++ l₂) = charE.decode l₁ ++ charE.decode l₂ := by
  show String.mk ((l₁ ++ l₂).map Char.ofNat)
    = String.mk (l₁.map Char.ofNat) ++ String.mk (l₂.map Char.ofNat)
  rw [List.map_append]
  rfl

theorem charE_reencode_le (l : List Nat) :
    (charE.encode (charE.decode l)).length ≤ l.length := by
  show ((String.mk (l.map Char.ofNat)).data.map Char.toNat).length ≤ l.length
  simp

/-- **C8 (amended).** `truncate(t, n)` returns `t` itself when `t`'s token
count fits in `n`; in general, for any tokenizer whose decode inverts encode
and distributes over token-list concatenation, the result is a prefix of `t`
(the decode of the first `n` tokens).  It is not in general the *longest*
prefix with token count at most `n`, and the bound
`count(truncate(t, n)) ≤ n` additionally needs re-encoding a decoded token
prefix never to produce more tokens. -/
theorem C8_truncate (E : Encoding)
    (hrt : ∀ s, E.decode (E.encode s) = s)
    (hhom : ∀ l₁ l₂, E.decode (l₁ ++ l₂) = E.decode l₁ ++ E.decode l₂)
    (t : String) (n : Nat) :
    (∃ r, truncate_text E t n ++ r = t) ∧
    ((E.encode t).length ≤ n → truncate_text E t n = t) ∧
    ((∀ l, (E.encode (E.decode l)).length ≤ l.length) →
      count_tokens E (truncate_text E t n) ≤ n) := by
  by_cases ht : t = ""
  · subst ht
    refine ⟨⟨"", rfl⟩, fun _ => rfl, fun _ => ?_⟩
    show count_tokens E "" ≤ n
    simp [count_tokens]
  · by_cases hlen : (E.encode t).length ≤ n
    · have htr : truncate_text E t n = t := by
        unfold truncate_text
        rw [if_neg ht, if_pos hlen]
      refine ⟨⟨"", by rw [htr, str_append_nil]⟩, fun _ => htr, fun _ => ?_⟩
      rw [htr]
      unfold count_tokens
      rw [if_neg ht]
      exact hlen
    · have htr : truncate_text E t n = E.decode ((E.encode t).take n) := by
        unfold truncate_text
        rw [if_neg ht, if_neg hlen]
      refine ⟨⟨E.decode ((E.encode t).drop n), ?_⟩, fun h => absurd h hlen, fun hre => ?_⟩
      · rw [htr, ← hhom, List.take_append_drop, hrt]
      · rw [htr]
        unfold count_tokens
        split
        · exact Nat.zero_le n
        · calc (E.encode (E.decode ((E.encode t).take n))).length
              ≤ ((E.encode t).take n).length := hre _
            _ ≤ n := by simp [List.length_take]

/-- **C8 (counterexample).** With the contract-satisfying toy tokenizer
(decode inverts encode; `"ab"` is one merged token but `"abc"` encodes
character-wise), `truncate("abc", 1) = "a"`, yet the strictly longer prefix
`"ab"` also has token count at most 1 — so `truncate` does not return the
longest prefix whose token count is at most `n`. -/
theorem C8_counterexample :
    toyE.decode (toyE.encode "abc") = "abc" ∧
    toyE.decode (toyE.encode "ab") = "ab" ∧
    truncate_text toyE "abc" 1 = "a" ∧
    "ab".data.isPrefixOf "abc".data = true ∧
    count_tokens toyE "ab" ≤ 1 ∧
    (truncate_text toyE "abc" 1).length < "ab".length := by
  refine ⟨by decide, by decide, by decide, by decide, by decide, by decide⟩

/-- **C8 (witness).** The amended theorem applied to the character-level
tokenizer at `t = "hello"`, `n = 3`. -/
theorem C8_witness :
    (∃ r, truncate_text charE "hello" 3 ++ r = "hello") ∧
    ((charE.encode "hello").length ≤ 3 → truncate_text charE "hello" 3 = "hello") ∧
    count_tokens charE (truncate_text charE "hello" 3) ≤ 3 := by
  have h := C8_truncate charE charE_roundtrip charE_hom "hello" 3
  exact ⟨h.1, h.2.1, h.2.2 charE_reencode_le⟩

/-! ## C10 — `replace` with an empty target -/

/-- **C10.** For every existing section, replacing the empty string succeeds
(the empty target occurs at position 0, so it is never rejected as not-found)
and prepends the new content to the section text. -/
theorem C10_replace_empty_target (cm : CM) (sec new txt : String)
    (h : getSection cm sec = some txt) :
    CoreMemory.replace cm sec "" new = (setSection cm sec (new ++ txt), true) := by
  unfold CoreMemory.replace
  rw [hasSection_of_getSection h, h]
  have hc : strContains txt "" = true := by
    unfold strContains strContainsL
    rw [show ("" : String).data = [] from rfl, firstOcc_nil_pat]
    rfl
  have hr : pyReplaceFirst txt "" new = new ++ txt := by
    unfold pyReplaceFirst pyReplaceFirstL
    rw [show ("" : String).data = [] from rfl, firstOcc_nil_pat]
    show String.mk (txt.data.take 0 ++ new.data ++ txt.data.drop (0 + [].length)) = new ++ txt
    cases txt with
    | mk d =>
      cases new with
      | mk nd => rfl
  simp [hc, hr]

/-- **C10 (witness).** The theorem applied to the default sections at
`section = "human"`. -/
theorem C10_witness :
    CoreMemory.replace defaultSections "human" "" "Update: " =
      (setSection defaultSections "human"
        ("Update: " ++ "No information about the user yet."), true) :=
  C10_replace_empty_target defaultSections "human" "Update: "
    "No information about the user yet." rfl

/-! ## C7 — `replace` of an existing occurrence -/

/-- **C7 (amended).** For a section whose text contains `old` exactly once
(all occurrences sit at the same position `a.length` in the decomposition
`a ++ old ++ b`), `replace` succeeds and rewrites exactly that occurrence;
when the section does not exist, or `old` does not occur, `replace` fails and
leaves the sections unchanged — but the two failure causes are *not*
distinguished: both are the same boolean `false` (and the executor layer
reports both as "Could not find old_content", see the counterexample). -/
theorem C7_core_memory_replace (cm : CM) :
    (∀ sec old new txt (a b : List Char), getSection cm sec = some txt →
        txt.data = a ++ old.data ++ b →
        (∀ i, occursAt txt.data old.data i → i = a.length) →
        CoreMemory.replace cm sec old new =
          (setSection cm sec ⟨a ++ new.data ++ b⟩, true)) ∧
    (∀ sec old new, hasSection cm sec = false →
        CoreMemory.replace cm sec old new = (cm, false)) ∧
    (∀ sec old new txt, getSection cm sec = some txt →
        (∀ i, ¬ occursAt txt.data old.data i) →
        CoreMemory.replace cm sec old new = (cm, false)) := by
  refine ⟨?_, ?_, ?_⟩
  · intro sec old new txt a b hget hdec huniq
    unfold CoreMemory.replace
    rw [hasSection_of_getSection hget, hget]
    have hc : strContains txt old = true := by
      unfold strContains
      apply (strContainsL_iff txt.data old.data).mpr
      refine ⟨a.length, ?_, ?_⟩
      · rw [hdec]; simp only [List.length_append]; omega
      · rw [hdec, List.append_assoc, List.drop_left]
        exact isPrefixOf_append_self old.data b
    have hr : pyReplaceFirst txt old new = ⟨a ++ new.data ++ b⟩ := by
      unfold pyReplaceFirst
      rw [show pyReplaceFirstL txt.data old.data new.data
            = pyReplaceFirstL (a ++ old.data ++ b) old.data new.data by rw [hdec]]
      rw [pyReplaceFirstL_unique a old.data b new.data (hdec ▸ huniq)]
    simp [hc, hr]
  · intro sec old new hno
    unfold CoreMemory.replace
    rw [hno]
    simp
  · intro sec old new txt hget hnone
    unfold CoreMemory.replace
    rw [hasSection_of_getSection hget, hget]
    have hc : strContains txt old = false := by
      unfold strContains
      rcases hb : strContainsL txt.data old.data with _ | _
      · rfl
      · rcases (strContainsL_iff txt.data old.data).mp hb with ⟨i, hi⟩
        exact absurd hi (hnone i)
    simp [hc]

/-- **C7 (counterexample).** The code does not distinguish `NotFound` from
`UnknownSection`: `CoreMemory.replace` returns the same `(sections, False)`
for a missing section and for a missing substring, and the executor reports
the *unknown-section* failure with the *not-found* message
("Could not find old_content in section 'nope'"). -/
theorem C7_counterexample :
    CoreMemory.replace defaultSections "nope" "x" "y" = (defaultSections, false) ∧
    CoreMemory.replace defaultSections "persona" "zzz" "y" = (defaultSections, false) ∧
    (CoreMemory.replace defaultSections "nope" "x" "y").2 =
      (CoreMemory.replace defaultSections "persona" "zzz" "y").2 ∧
    (FunctionExecutor.execute execState0 "core_memory_replace"
        [("section", .vstr "nope"), ("old_content", .vstr "x"),
         ("new_content", .vstr "y")]).1.1 = "error" ∧
    (FunctionExecutor.execute execState0 "core_memory_replace"
        [("section", .vstr "nope"), ("old_content", .vstr "x"),
         ("new_content", .vstr "y")]).1.2.1 =
      "Error executing core_memory_replace: Could not find old_content in section "
        ++ sq ++ "nope" ++ sq := by
  refine ⟨by decide, by decide, by decide, ?_, ?_⟩ <;> rfl

/-- **C7 (witness).** The amended theorem applied to the default sections:
`"user"` occurs exactly once in the `human` section. -/
theorem C7_witness :
    CoreMemory.replace defaultSections "human" "user" "client" =
      (setSection defaultSections "human"
        ⟨"No information about the ".data ++ "client".data ++ " yet.".data⟩, true) :=
  (C7_core_memory_replace defaultSections).1 "human" "user" "client"
    "No information about the user yet." "No information about the ".data " yet.".data
    rfl (by decide)
    ((occursAt_forall_iff "No information about the user yet.".data "user".data
        "No information about the ".data.length).mpr (by decide))

/-! ## Queue-manager lemmas -/

/-- `_check_memory_pressure` with its local `current_tokens` zeta-expanded. -/
theorem check_memory_pressure_eq (cnt : String → Nat) (qm : QM) :
    QM.check_memory_pressure cnt qm =
      if (qm.max_tokens : ℚ) * qm.warning_threshold < (queueTokens cnt qm.queue : ℚ) ∧
          lastIsWarning qm.queue = false then
        ({ qm with queue := qm.queue ++ [pressureWarningMsg] }, true)
      else if (qm.max_tokens : ℚ) * qm.flush_threshold ≤ (queueTokens cnt qm.queue : ℚ) then
        (qm.evict_messages, false)
      else (qm, false) := rfl

/-- Shape of `_evict_messages` on a queue with at least one evictable slot:
the new queue is the fresh system summary followed by `queue[k+1:]`, the
evicted block `queue[1:k+1]` is appended to the recall log in order, and the
queue length drops by exactly `k = max(1, (n-1) // 3)`. -/
theorem evict_messages_spec (qm : QM) (h : 2 ≤ qm.queue.length) :
    (QM.evict_messages qm).queue =
      ⟨"system", evictSummary qm, none⟩ :: qm.queue.drop (num_to_evict qm + 1) ∧
    (QM.evict_messages qm).recallLog =
      qm.recallLog ++ (qm.queue.drop 1).take (num_to_evict qm) ∧
    (QM.evict_messages qm).queue.length = qm.queue.length - num_to_evict qm ∧
    1 ≤ num_to_evict qm ∧ num_to_evict qm ≤ qm.queue.length - 1 := by
  have hk1 : 1 ≤ num_to_evict qm := by unfold num_to_evict; exact Nat.le_max_left 1 _
  have hk2 : num_to_evict qm ≤ qm.queue.length - 1 := by
    unfold num_to_evict
    have h3 := Nat.div_le_self (qm.queue.length - 1) 3
    exact Nat.max_le.mpr ⟨by omega, h3⟩
  have hnot : ¬ qm.queue.length ≤ 1 := by omega
  unfold QM.evict_messages
  rw [if_neg hnot]
  refine ⟨rfl, rfl, ?_, hk1, hk2⟩
  simp only [List.length_cons, List.length_drop]
  omega

/-! ## C3 — eviction contract -/

/-- **C3.** Whenever eviction runs on a queue of length `n ≥ 2`, exactly
`k = max(1, ⌊(n-1)/3⌋)` oldest non-summary messages — slots 1 through `k` —
are removed, each evicted message enters the recall store in its original
queue order, slot 0 is replaced by one new system summary message, and the
queue length decreases by exactly `k`. -/
theorem C3_eviction (qm : QM) (h : 2 ≤ qm.queue.length) :
    (QM.evict_messages qm).queue =
      ⟨"system", evictSummary qm, none⟩ :: qm.queue.drop (num_to_evict qm + 1) ∧
    (QM.evict_messages qm).recallLog =
      qm.recallLog ++ (qm.queue.drop 1).take (num_to_evict qm) ∧
    (QM.evict_messages qm).queue.length = qm.queue.length - num_to_evict qm ∧
    1 ≤ num_to_evict qm ∧ num_to_evict qm ≤ qm.queue.length - 1 :=
  evict_messages_spec qm h

/-- **C3 (witness).** The eviction contract applied to a concrete four-slot
queue (`k = max(1, ⌊3/3⌋) = 1`). -/
theorem C3_witness :
    (QM.evict_messages qmC3).queue =
      ⟨"system", evictSummary qmC3, none⟩ :: qmC3.queue.drop (num_to_evict qmC3 + 1) ∧
    (QM.evict_messages qmC3).recallLog =
      qmC3.recallLog ++ (qmC3.queue.drop 1).take (num_to_evict qmC3) ∧
    (QM.evict_messages qmC3).queue.length = qmC3.queue.length - num_to_evict qmC3 ∧
    1 ≤ num_to_evict qmC3 ∧ num_to_evict qmC3 ≤ qmC3.queue.length - 1 :=
  C3_eviction qmC3 (by decide)

/-! ## C1 — pressure/flush invariant -/

/-- **C1 (amended).** After any `add_message` one of three things holds: a
pressure warning was injected (in which case the flush check is *skipped*, so
the queue can exceed `max_tokens · flush_threshold` without eviction), or an
eviction executed during the call (the token count, measured after the append,
was at or above the flush threshold), or the queue was left as appended with
its token count strictly below the flush threshold.  Whenever an eviction
executes on a queue of length ≥ 2 whose slot 0 is a system message (true in
every reachable state), the queue length strictly decreases, and the token
count strictly decreases provided the new summary's token count does not
exceed the old summary content's (with the fallback concatenation summarizer
the summary can grow and the count can increase — see the counterexample). -/
theorem C1_pressure_flush (cnt : String → Nat) :
    (∀ (qm : QM) (role content : String) (md : Option String),
      (QM.add_message cnt qm role content md).2 = true ∨
      ((qm.max_tokens : ℚ) * qm.flush_threshold ≤
          (queueTokens cnt (qm.queue ++ [⟨role, content, md⟩]) : ℚ) ∧
        (QM.add_message cnt qm role content md).1 =
          QM.evict_messages { qm with queue := qm.queue ++ [⟨role, content, md⟩] }) ∨
      ((QM.size cnt (QM.add_message cnt qm role content md).1 : ℚ) <
          (qm.max_tokens : ℚ) * qm.flush_threshold ∧
        (QM.add_message cnt qm role content md).1 =
          { qm with queue := qm.queue ++ [⟨role, content, md⟩] })) ∧
    (∀ qm : QM, 2 ≤ qm.queue.length →
      (qm.queue.headD initialSummaryMsg).role = "system" →
      cnt (evictSummary qm) ≤ cnt ((qm.queue.headD initialSummaryMsg).content) →
      (QM.evict_messages qm).queue.length < qm.queue.length ∧
      QM.size cnt (QM.evict_messages qm) < QM.size cnt qm) := by
  constructor
  · intro qm role content md
    unfold QM.add_message
    rw [check_memory_pressure_eq]
    split
    · left; rfl
    · split
      · rename_i hflush
        right; left
        exact ⟨hflush, rfl⟩
      · rename_i hflush
        right; right
        push_neg at hflush
        exact ⟨hflush, rfl⟩
  · intro qm hlen hrole hcnt
    rcases hq : qm.queue with _ | ⟨q0, rest⟩
    · rw [hq] at hlen; simp at hlen
    · have hlen2 : 2 ≤ qm.queue.length := hlen
      rw [hq] at hlen
      have hrest : 1 ≤ rest.length := by
        simp only [List.length_cons] at hlen; omega
      have hk1 : 1 ≤ num_to_evict qm := by unfold num_to_evict; exact Nat.le_max_left 1 _
      have hnot : ¬ qm.queue.length ≤ 1 := by rw [hq]; simp only [List.length_cons]; omega
      have hev : (QM.evict_messages qm).queue =
          ⟨"system", evictSummary qm, none⟩ :: rest.drop (num_to_evict qm) := by
        unfold QM.evict_messages
        rw [if_neg hnot, hq, List.drop_succ_cons]
      have hrole' : q0.role = "system" := by rw [hq] at hrole; simpa using hrole
      have hcnt' : cnt (evictSummary qm) ≤ cnt q0.content := by
        rw [hq] at hcnt; simpa using hcnt
      -- token-count bookkeeping
      have hpost : QM.size cnt (QM.evict_messages qm) =
          messageTokens cnt ⟨"system", evictSummary qm, none⟩ +
            ((rest.drop (num_to_evict qm)).map (messageTokens cnt)).sum + 2 := by
        unfold QM.size
        rw [hev, queueTokens_eq _ _ (by simp)]
        simp only [List.map_cons, List.sum_cons]
      have hsplit : (rest.map (messageTokens cnt)).sum =
          ((rest.take (num_to_evict qm)).map (messageTokens cnt)).sum +
            ((rest.drop (num_to_evict qm)).map (messageTokens cnt)).sum := by
        conv_lhs => rw [← List.take_append_drop (num_to_evict qm) rest]
        rw [List.map_append, List.sum_append]
      have hpre : QM.size cnt qm =
          messageTokens cnt q0 + (rest.map (messageTokens cnt)).sum + 2 := by
        unfold QM.size
        rw [hq, queueTokens_eq _ _ (by simp)]
        simp only [List.map_cons, List.sum_cons]
      have htake : 4 ≤ ((rest.take (num_to_evict qm)).map (messageTokens cnt)).sum := by
        rcases rest with _ | ⟨r0, rest'⟩
        · simp at hrest
        · rcases hk : num_to_evict qm with _ | k'
          · omega
          · simp only [List.take_succ_cons, List.map_cons, List.sum_cons]
            have := messageTokens_ge cnt r0
            omega
      have hnew := messageTokens_eq cnt ⟨"system", evictSummary qm, none⟩
      simp only at hnew
      have hlow := messageTokens_lower cnt q0
      rw [hrole'] at hlow
      constructor
      · rw [hev]
        simp only [List.length_cons, List.length_drop]
        omega
      · rw [hpost, hpre, hsplit, hnew]
        omega

unseal Rat.mul Rat.inv in
/-- **C1 (counterexample).** With `warning = 1/4 < flush = 1/2 ≤ 1` and
`max_tokens = 64`: (a) the very first `add` injects a pressure warning and
returns without evicting — the recall log stays empty and the queue is just
the appended messages — although the resulting token count exceeds
`max_tokens · flush`, refuting "size() ≤ max_tokens · flush or an eviction
executed"; (b) an `add` whose message is itself a pressure-style system
message triggers eviction (the duplicate check suppresses the warning), and
with a summarizer that returns a long summary (here: its own prompt) the
token count strictly *increases* across the eviction, refuting "whenever an
eviction executes, size() strictly decreases". -/
theorem C1_counterexample :
    ((1 : ℚ)/4 < 1/2 ∧ (1 : ℚ)/2 ≤ 1) ∧
    ((QM.add_message String.length qmC1a "user" "hi" none).1.recallLog = [] ∧
     (QM.add_message String.length qmC1a "user" "hi" none).1.queue =
       [initialSummaryMsg, ⟨"user", "hi", none⟩, pressureWarningMsg] ∧
     (QM.add_message String.length qmC1a "user" "hi" none).2 = true ∧
     (qmC1a.max_tokens : ℚ) * qmC1a.flush_threshold <
       (QM.size String.length (QM.add_message String.length qmC1a "user" "hi" none).1 : ℚ)) ∧
    ((QM.add_message String.length qmC1b "system" "Memory pressure now" none).1.recallLog =
       [⟨"user", "b", none⟩] ∧
     QM.size String.length
         { qmC1b with queue := qmC1b.queue ++ [⟨"system", "Memory pressure now", none⟩] } <
       QM.size String.length
         (QM.add_message String.length qmC1b "system" "Memory pressure now" none).1) := by
  refine ⟨⟨by norm_num, by norm_num⟩, ⟨?_, ?_, ?_, ?_⟩, ?_, ?_⟩ <;> decide

/-- **C1 (witness).** The eviction clause of the amended theorem applied to a
concrete queue whose summarizer returns the one-character summary `"S"`. -/
theorem C1_witness :
    (QM.evict_messages qmC3).queue.length < qmC3.queue.length ∧
    QM.size String.length (QM.evict_messages qmC3) < QM.size String.length qmC3 :=
  (C1_pressure_flush String.length).2 qmC3 (by decide) (by decide) (by decide)

/-! ## C2 — warning injection and duplicate suppression -/

/-- **C2 (amended).** When an `add_message` brings the queue's token count
above `max_tokens · warning_threshold`, a single system warning is appended
and `add` returns `true` *iff the just-appended message — the queue's new
last slot — is not itself a memory-pressure system message*.  Duplicate
suppression inspects only the last slot, so a second above-threshold `add` of
an ordinary message re-injects the warning (the earlier warning is no longer
last); it does not prevent duplicates — see the counterexample. -/
theorem C2_warning_iff (cnt : String → Nat) (qm : QM) (role content : String)
    (md : Option String)
    (h : (qm.max_tokens : ℚ) * qm.warning_threshold <
      (queueTokens cnt (qm.queue ++ [⟨role, content, md⟩]) : ℚ)) :
    (((QM.add_message cnt qm role content md).2 = true ∧
      (QM.add_message cnt qm role content md).1.queue =
        qm.queue ++ [⟨role, content, md⟩] ++ [pressureWarningMsg])
     ↔ isPressureWarning ⟨role, content, md⟩ = false) := by
  unfold QM.add_message
  rw [check_memory_pressure_eq]
  have hlast : lastIsWarning (qm.queue ++ [⟨role, content, md⟩]) =
      isPressureWarning ⟨role, content, md⟩ := by
    unfold lastIsWarning
    rw [List.getLast?_concat]
  rcases hw : isPressureWarning ⟨role, content, md⟩ with _ | _
  · rw [if_pos ⟨h, by rw [hlast]; exact hw⟩]
    simp
  · have hcond : ¬((qm.max_tokens : ℚ) * qm.warning_threshold <
        (queueTokens cnt (qm.queue ++ [⟨role, content, md⟩]) : ℚ) ∧
        lastIsWarning (qm.queue ++ [⟨role, content, md⟩]) = false) := by
      rintro ⟨-, hc⟩
      rw [hlast, hw] at hc
      cases hc
    rw [if_neg hcond]
    constructor
    · rintro ⟨h1, -⟩
      exfalso
      split at h1 <;> exact absurd h1 (by simp)
    · intro hf
      cases hf

unseal Rat.mul Rat.inv in
/-- **C2 (counterexample).** `max_tokens = 1000`, `warning = 1/10`,
`flush = 9/10`: the first 50-character `add` injects a warning.  A second
small `add` stays far below the flush threshold, yet a *duplicate* warning is
injected — the queue ends `[..., warning, message, warning]` — because the
just-added message, not the warning, is now the last slot.  This refutes "a
second add that does not cross the flush threshold does not inject a
duplicate warning". -/
theorem C2_counterexample :
    (QM.add_message String.length qmC2 "user" msg50 none).2 = true ∧
    ((QM.add_message String.length
        (QM.add_message String.length qmC2 "user" msg50 none).1 "user" "b" none).2 = true ∧
     (QM.add_message String.length
        (QM.add_message String.length qmC2 "user" msg50 none).1 "user" "b" none).1.queue =
       [initialSummaryMsg, ⟨"user", msg50, none⟩, pressureWarningMsg,
        ⟨"user", "b", none⟩, pressureWarningMsg]) ∧
    ((queueTokens String.length
        ((QM.add_message String.length qmC2 "user" msg50 none).1.queue ++
          [⟨"user", "b", none⟩]) : ℚ) <
      (qmC2.max_tokens : ℚ) * qmC2.flush_threshold) := by
  refine ⟨?_, ⟨?_, ?_⟩, ?_⟩ <;> decide

unseal Rat.mul Rat.inv in
/-- **C2 (witness).** The amended theorem applied to the first `add` of the
counterexample configuration: the last slot is an ordinary user message, so
the warning is injected and `add` returns `true`. -/
theorem C2_witness :
    (QM.add_message String.length qmC2 "user" msg50 none).2 = true ∧
    (QM.add_message String.length qmC2 "user" msg50 none).1.queue =
      qmC2.queue ++ [⟨"user", msg50, none⟩] ++ [pressureWarningMsg] :=
  (C2_warning_iff String.length qmC2 "user" msg50 none (by decide)).mpr (by decide)

/-! ## C4 — slot-0 invariant -/

theorem pressureWarningMsg_isWarning : isPressureWarning pressureWarningMsg = true := by
  decide

/-- Every operation preserves the slot-0 shape: a system message with no
metadata at the head of the queue. -/
theorem applyOp_head (cnt : String → Nat) (qm : QM) (op : QOp)
    (h : ∃ c rest, qm.queue = ⟨"system", c, none⟩ :: rest) :
    ∃ c rest, (applyOp cnt qm op).queue = ⟨"system", c, none⟩ :: rest := by
  rcases h with ⟨c0, rest, hq⟩
  rcases op with ⟨r, c, md⟩ | k | s | _
  · show ∃ cc rr, (QM.add_message cnt qm r c md).1.queue =
      (⟨"system", cc, none⟩ : Message) :: rr
    unfold QM.add_message
    rw [check_memory_pressure_eq]
    split
    · exact ⟨c0, rest ++ [⟨r, c, md⟩] ++ [pressureWarningMsg],
        by simp [hq, List.cons_append]⟩
    · split
      · have hlen : 2 ≤ ({ qm with queue := qm.queue ++ [⟨r, c, md⟩] } : QM).queue.length := by
          simp [hq]
        rcases evict_messages_spec _ hlen with ⟨hev, -, -, -, -⟩
        exact ⟨_, _, hev⟩
      · exact ⟨c0, rest ++ [⟨r, c, md⟩], by simp [hq, List.cons_append]⟩
  · show ∃ c rest, (qm.clear_queue k).queue = _
    unfold QM.clear_queue
    split
    · exact ⟨c0, [], by simp [hq]⟩
    · exact ⟨"Conversation summary: No previous interactions.", [], rfl⟩
  · show ∃ c rest, (qm.set_summary s).queue = _
    unfold QM.set_summary
    rw [hq]
    exact ⟨s, rest, rfl⟩
  · show ∃ c rest, qm.evict_messages.queue = _
    by_cases hlen : qm.queue.length ≤ 1
    · unfold QM.evict_messages
      rw [if_pos hlen]
      exact ⟨c0, rest, hq⟩
    · rcases evict_messages_spec qm (by omega) with ⟨hev, -, -, -, -⟩
      exact ⟨_, _, hev⟩

/-- Every operation other than an `add` with role `system` preserves the tail
invariant: any system-role message in slots 1.. is a pressure warning. -/
theorem applyOp_tail (cnt : String → Nat) (qm : QM) (op : QOp)
    (hhead : ∃ c rest, qm.queue = ⟨"system", c, none⟩ :: rest)
    (htail : ∀ m ∈ qm.queue.tail, m.role = "system" → isPressureWarning m = true)
    (hop : opRole op ≠ some "system") :
    ∀ m ∈ (applyOp cnt qm op).queue.tail, m.role = "system" →
      isPressureWarning m = true := by
  rcases hhead with ⟨c0, rest, hq⟩
  have htail' : ∀ m ∈ rest, m.role = "system" → isPressureWarning m = true := by
    intro m hm
    exact htail m (by rw [hq]; exact hm)
  rcases op with ⟨r, c, md⟩ | k | s | _
  · have hr : r ≠ "system" := by
      intro hrr
      exact hop (by rw [hrr]; rfl)
    have hmem : ∀ m, m ∈ rest ++ [(⟨r, c, md⟩ : Message)] → m.role = "system" →
        isPressureWarning m = true := by
      intro m hm hrole
      rcases List.mem_append.mp hm with hm | hm
      · exact htail' m hm hrole
      · rcases List.mem_singleton.mp hm with rfl
        exact absurd hrole hr
    show ∀ m ∈ (QM.add_message cnt qm r c md).1.queue.tail, _
    unfold QM.add_message
    rw [check_memory_pressure_eq]
    split
    · intro m hm hrole
      simp only [hq, List.cons_append, List.tail_cons] at hm
      rcases List.mem_append.mp hm with hm | hm
      · exact hmem m hm hrole
      · rcases List.mem_singleton.mp hm with rfl
        exact pressureWarningMsg_isWarning
    · split
      · rename_i hflush
        have hlen : 2 ≤ ({ qm with queue := qm.queue ++ [⟨r, c, md⟩] } : QM).queue.length := by
          simp [hq]
        rcases evict_messages_spec _ hlen with ⟨hev, -, -, -, -⟩
        intro m hm hrole
        rw [hev] at hm
        simp only [List.tail_cons] at hm
        rw [hq, List.cons_append, List.drop_succ_cons] at hm
        exact hmem m (List.mem_of_mem_drop hm) hrole
      · intro m hm hrole
        simp only [hq, List.cons_append, List.tail_cons] at hm
        exact hmem m hm hrole
  · show ∀ m ∈ (qm.clear_queue k).queue.tail, _
    unfold QM.clear_queue
    split
    · intro m hm
      simp [hq] at hm
    · intro m hm
      simp at hm
  · show ∀ m ∈ (qm.set_summary s).queue.tail, _
    unfold QM.set_summary
    rw [hq]
    intro m hm
    exact htail' m hm
  · show ∀ m ∈ qm.evict_messages.queue.tail, _
    by_cases hlen : qm.queue.length ≤ 1
    · unfold QM.evict_messages
      rw [if_pos hlen]
      intro m hm
      exact htail m hm
    · rcases evict_messages_spec qm (by omega) with ⟨hev, -, -, -, -⟩
      intro m hm hrole
      rw [hev] at hm
      simp only [List.tail_cons] at hm
      rw [hq, List.drop_succ_cons] at hm
      exact htail' m (List.mem_of_mem_drop hm) hrole

/-- The two invariants pushed through an arbitrary operation sequence. -/
theorem applyOps_invariant (cnt : String → Nat) (ops : List QOp) :
    ∀ qm : QM, (∃ c rest, qm.queue = ⟨"system", c, none⟩ :: rest) →
      (∃ c rest, (applyOps cnt qm ops).queue = ⟨"system", c, none⟩ :: rest) ∧
      ((∀ op ∈ ops, opRole op ≠ some "system") →
        (∀ m ∈ qm.queue.tail, m.role = "system" → isPressureWarning m = true) →
        ∀ m ∈ (applyOps cnt qm ops).queue.tail, m.role = "system" →
          isPressureWarning m = true) := by
  induction ops with
  | nil =>
    intro qm h
    exact ⟨h, fun _ ht => ht⟩
  | cons op ops ih =>
    intro qm h
    have hstep := applyOp_head cnt qm op h
    refine ⟨(ih _ hstep).1, ?_⟩
    intro hops ht
    have htail' := applyOp_tail cnt qm op h ht (hops op (List.mem_cons_self op ops))
    exact (ih _ hstep).2 (fun o ho => hops o (List.mem_cons_of_mem _ ho)) htail'

/-- **C4 (amended).** After construction and any sequence of `add_message`,
`clear_queue`, `set_summary`, and eviction operations, slot 0 exists and is a
system message; in the empty state the summary text equals
`"Conversation summary: No previous interactions."` (the spec's
`"No previous interactions."` is only a suffix of it); and for sequences in
which no `add` carries role `system`, every system-role message outside slot 0
is an injected pressure warning (an `add` with role `system` — which the agent
itself performs for LLM transport errors — can place other system messages in
the tail, see the counterexample). -/
theorem C4_slot0 (cnt : String → Nat) (maxT : Nat) (wt ft : ℚ)
    (sumF : Option (String → Option String)) (ops : List QOp) :
    ((applyOps cnt (QM.init maxT wt ft sumF) ops).queue ≠ [] ∧
     ((applyOps cnt (QM.init maxT wt ft sumF) ops).queue.headD initialSummaryMsg).role
        = "system") ∧
    ((∀ op ∈ ops, opRole op ≠ some "system") →
      ∀ m ∈ (applyOps cnt (QM.init maxT wt ft sumF) ops).queue.tail,
        m.role = "system" → isPressureWarning m = true) ∧
    QM.get_summary (QM.init maxT wt ft sumF) =
      "Conversation summary: No previous interactions." := by
  have h0 : ∃ c rest, (QM.init maxT wt ft sumF).queue = ⟨"system", c, none⟩ :: rest :=
    ⟨"Conversation summary: No previous interactions.", [], rfl⟩
  have hinv := applyOps_invariant cnt ops (QM.init maxT wt ft sumF) h0
  refine ⟨?_, ?_, rfl⟩
  · rcases hinv.1 with ⟨c, rest, hq⟩
    rw [hq]
    exact ⟨by simp, by simp⟩
  · intro hops
    refine hinv.2 hops ?_
    intro m hm
    simp [QM.init] at hm

unseal Rat.mul Rat.inv in
/-- **C4 (counterexample).** The empty-state summary text is
`"Conversation summary: No previous interactions."`, not
`"No previous interactions."`; and a single `add` with role `system` places a
non-warning system message in slot 1, refuting "no slot other than 0 has role
system except injected pressure warnings" for arbitrary `add` sequences. -/
theorem C4_counterexample :
    QM.get_summary (QM.init 8000 (7/10) (19/20) none) =
      "Conversation summary: No previous interactions." ∧
    ¬ QM.get_summary (QM.init 8000 (7/10) (19/20) none) = "No previous interactions." ∧
    (QM.add_message String.length (QM.init 8000 (7/10) (19/20) none)
        "system" "oops" none).1.queue =
      [initialSummaryMsg, ⟨"system", "oops", none⟩] ∧
    isPressureWarning ⟨"system", "oops", none⟩ = false := by
  refine ⟨?_, ?_, ?_, ?_⟩ <;> decide

/-- **C4 (witness).** The amended invariant at a concrete five-operation
sequence without system-role adds. -/
theorem C4_witness :
    ((applyOps String.length (QM.init 8000 (7/10) (19/20) none) opsW).queue ≠ [] ∧
     ((applyOps String.length (QM.init 8000 (7/10) (19/20) none) opsW).queue.headD
        initialSummaryMsg).role = "system") ∧
    (∀ m ∈ (applyOps String.length (QM.init 8000 (7/10) (19/20) none) opsW).queue.tail,
      m.role = "system" → isPressureWarning m = true) :=
  ⟨(C4_slot0 String.length 8000 (7/10) (19/20) none opsW).1,
   (C4_slot0 String.length 8000 (7/10) (19/20) none opsW).2.1 (by decide)⟩

/-! ## C9 — executor error handling -/

/-- **C9 (amended).** `execute` always returns a `(status, message, payload)`
triple with status `"success"` or `"error"` — no exception propagates.  An
unknown tool name, and a missing or extra argument field, yield status
`"error"` with a descriptive message; so does an unknown working-context
section.  A *wrong-typed* argument field, however, is not necessarily an
error: Python does not check annotation types, so `send_message` with a
non-string content succeeds (see the counterexample); wrong-typed fields are
errors only when they raise inside the handler (e.g. a non-string replace
target). -/
theorem C9_execute_total (st : ExecState) (name : String) (args : Args) :
    ((FunctionExecutor.execute st name args).1.1 = "success" ∨
     (FunctionExecutor.execute st name args).1.1 = "error") ∧
    (functionNames.contains name = false →
      FunctionExecutor.execute st name args =
        (("error", "Unknown function: " ++ name, none), st)) ∧
    (functionNames.contains name = true → argsBindOk name args = false →
      FunctionExecutor.execute st name args =
        (("error", "Invalid arguments for " ++ name ++ ": " ++
          (name ++ "() received unexpected or missing arguments"), none), st)) ∧
    (∀ s content, hasSection st.sections s = false →
      FunctionExecutor.execute st "core_memory_append"
          [("section", PyVal.vstr s), ("content", content)] =
        (("error", "Error executing " ++ "core_memory_append" ++ ": " ++
          ("Section " ++ sq ++ s ++ sq ++ " does not exist"), none), st)) := by
  refine ⟨?_, ?_, ?_, ?_⟩
  · unfold FunctionExecutor.execute
    split
    · right; rfl
    · split
      · left; rfl
      · right; rfl
      · right; rfl
  · intro hn
    unfold FunctionExecutor.execute
    rw [if_pos (fun hc => by rw [hn] at hc; cases hc)]
  · intro hn hbind
    have hrun : runHandler st name args =
        .error (.typeError (name ++ "() received unexpected or missing arguments")) := by
      unfold runHandler
      rw [if_pos (fun hc => by rw [hbind] at hc; cases hc)]
    unfold FunctionExecutor.execute
    rw [if_neg (not_not_intro hn), hrun]
  · intro s content hs
    have hbind : argsBindOk "core_memory_append"
        [("section", PyVal.vstr s), ("content", content)] = true := rfl
    have happ : coreAppendPy st.sections (PyVal.vstr s) content =
        .ok (st.sections, false) := by
      unfold coreAppendPy
      show (if hasSection st.sections s = true then
          Except.ok (setSection st.sections s (((getSection st.sections s).getD "") ++ "\n"
            ++ pyStr content), true)
        else Except.ok (st.sections, false)) = Except.ok (st.sections, false)
      rw [if_neg (fun hc => by rw [hs] at hc; cases hc)]
    have hrun : runHandler st "core_memory_append"
        [("section", PyVal.vstr s), ("content", content)] =
        .error (.valueError ("Section " ++ sq ++ s ++ sq ++ " does not exist")) := by
      unfold runHandler
      rw [if_neg (not_not_intro hbind)]
      have hlook2 : ((([("section", PyVal.vstr s), ("content", content)] : Args).lookup
          "content").getD .vnone) = content := rfl
      show (coreAppendPy st.sections (PyVal.vstr s)
          ((([("section", PyVal.vstr s), ("content", content)] : Args).lookup
            "content").getD .vnone)).bind _ = _
      rw [hlook2, happ]
      rfl
    unfold FunctionExecutor.execute
    rw [if_neg (by decide), hrun]

/-- **C9 (counterexample).** A wrong-typed argument is not an error:
`send_message` with the integer content `5` returns status `"success"` (the
handler body never checks the annotation), refuting "a missing, extra, or
wrong-typed argument field … all yield status error". -/
theorem C9_counterexample :
    (FunctionExecutor.execute execState0 "send_message"
      [("content", PyVal.vint 5)]).1.1 = "success" := rfl

/-- **C9 (witness).** The amended theorem applied at an unknown tool name, at
`send_message` with a missing argument, and at `core_memory_append` with an
unknown section. -/
theorem C9_witness :
    FunctionExecutor.execute execState0 "frobnicate" [] =
      (("error", "Unknown function: " ++ "frobnicate", none), execState0) ∧
    FunctionExecutor.execute execState0 "send_message" [] =
      (("error", "Invalid arguments for " ++ "send_message" ++ ": " ++
        ("send_message" ++ "() received unexpected or missing arguments"), none),
        execState0) ∧
    FunctionExecutor.execute execState0 "core_memory_append"
        [("section", PyVal.vstr "nope"), ("content", PyVal.vstr "x")] =
      (("error", "Error executing " ++ "core_memory_append" ++ ": " ++
        ("Section " ++ sq ++ "nope" ++ sq ++ " does not exist"), none), execState0) :=
  ⟨(C9_execute_total execState0 "frobnicate" []).2.1 (by decide),
   (C9_execute_total execState0 "send_message" []).2.2.1 (by decide) (by decide),
   (C9_execute_total execState0 "core_memory_append"
      [("section", PyVal.vstr "nope"), ("content", PyVal.vstr "x")]).2.2.2 "nope"
      (PyVal.vstr "x") (by decide)⟩

/-! ## C5 — heartbeat iteration cap -/

/-- `execute` on `send_message` succeeds exactly when the argument dict binds
(the handler body itself never fails). -/
theorem execute_send_message_status (st : ExecState) (args : Args) :
    (FunctionExecutor.execute st "send_message" args).1.1 = "success" ↔
      argsBindOk "send_message" args = true := by
  unfold FunctionExecutor.execute
  rw [if_neg (by decide)]
  rcases hb : argsBindOk "send_message" args with _ | _
  · have hrun : runHandler st "send_message" args =
        .error (.typeError ("send_message" ++ "() received unexpected or missing arguments")) := by
      unfold runHandler
      rw [if_pos (fun hc => by rw [hb] at hc; cases hc)]
    rw [hrun]
    show ("error" = "success") ↔ (false = true)
    exact ⟨fun h => absurd h (by decide), fun h => absurd h (by decide)⟩
  · have hrun : runHandler st "send_message" args =
        .ok (.vdict [("status", .vstr "message_sent"),
          ("content", (args.lookup "content").getD .vnone)], st) := by
      unfold runHandler
      rw [if_neg (not_not_intro hb)]
      rfl
    rw [hrun]
    exact ⟨fun _ => rfl, fun _ => rfl⟩

theorem bne_false_eq (fname : String) (h : (fname != "send_message") = false) :
    fname = "send_message" := by
  by_contra hne
  have hb : (fname != "send_message") = true := bne_iff_ne.mpr hne
  rw [h] at hb
  cases hb

/-- Combining one recursive heartbeat step with the induction hypothesis for
the remaining fuel. -/
theorem heartbeat_combine (cnt : String → Nat) (llm : Nat → LLMOutcome)
    (fuel iteration : Nat) (S : AgentState)
    (H : (heartbeatAux cnt llm fuel S (iteration + 1)).2.2 ≤ fuel ∧
      ((heartbeatAux cnt llm fuel S (iteration + 1)).1.status = "max_iterations" →
        (heartbeatAux cnt llm fuel S (iteration + 1)).1.iterations =
          some ((iteration + 1) + (heartbeatAux cnt llm fuel S (iteration + 1)).2.2) ∧
        ((iteration + 1) + (heartbeatAux cnt llm fuel S (iteration + 1)).2.2 = max_iterations ∨
          failedSendAt llm
            ((iteration + 1) + (heartbeatAux cnt llm fuel S (iteration + 1)).2.2 - 1)))) :
    (heartbeatAux cnt llm fuel S (iteration + 1)).2.2 + 1 ≤ fuel + 1 ∧
    ((heartbeatAux cnt llm fuel S (iteration + 1)).1.status = "max_iterations" →
      (heartbeatAux cnt llm fuel S (iteration + 1)).1.iterations =
        some (iteration + ((heartbeatAux cnt llm fuel S (iteration + 1)).2.2 + 1)) ∧
      (iteration + ((heartbeatAux cnt llm fuel S (iteration + 1)).2.2 + 1) = max_iterations ∨
        failedSendAt llm
          (iteration + ((heartbeatAux cnt llm fuel S (iteration + 1)).2.2 + 1) - 1))) := by
  obtain ⟨hc, hs⟩ := H
  refine ⟨by omega, fun hst => ?_⟩
  obtain ⟨hit, hd⟩ := hs hst
  have harith : (iteration + 1) + (heartbeatAux cnt llm fuel S (iteration + 1)).2.2
      = iteration + ((heartbeatAux cnt llm fuel S (iteration + 1)).2.2 + 1) := by
    omega
  rw [harith] at hit hd
  exact ⟨hit, hd⟩

/-- The loop invariant of the heartbeat, by induction on the remaining fuel:
the number of LLM calls is bounded by the fuel, and a `max_iterations`
outcome reports `iterations = start + calls` and arises only when the cap is
reached or the final call was a failed `send_message`. -/
theorem heartbeatAux_spec (cnt : String → Nat) (llm : Nat → LLMOutcome) :
    ∀ (fuel : Nat) (st : AgentState) (iteration : Nat),
      fuel + iteration = max_iterations →
      (heartbeatAux cnt llm fuel st iteration).2.2 ≤ fuel ∧
      ((heartbeatAux cnt llm fuel st iteration).1.status = "max_iterations" →
        (heartbeatAux cnt llm fuel st iteration).1.iterations =
          some (iteration + (heartbeatAux cnt llm fuel st iteration).2.2) ∧
        (iteration + (heartbeatAux cnt llm fuel st iteration).2.2 = max_iterations ∨
          failedSendAt llm
            (iteration + (heartbeatAux cnt llm fuel st iteration).2.2 - 1))) := by
  intro fuel
  induction fuel with
  | zero =>
    intro st iteration h
    refine ⟨Nat.le_refl 0, fun _ => ⟨?_, Or.inl ?_⟩⟩
    · show (maxIterationsResult iteration).iterations = some (iteration + 0)
      simp [maxIterationsResult]
    · show iteration + 0 = max_iterations
      omega
  | succ fuel ih =>
    intro st iteration h
    rcases hl : llm iteration with e | resp
    · simp only [heartbeatAux, hl]
      exact ⟨by omega, fun hst => absurd hst (by decide)⟩
    · rcases ht : resp.toolCall with _ | ⟨fname, args⟩
      · by_cases hfin : resp.finishReason = "stop"
        · simp only [heartbeatAux, hl, ht]
          rw [if_pos hfin]
          dsimp only
          exact ⟨by omega, fun hst => absurd hst (by decide)⟩
        · simp only [heartbeatAux, hl, ht]
          rw [if_neg hfin]
          dsimp only
          exact heartbeat_combine cnt llm fuel iteration _ (ih _ (iteration + 1) (by omega))
      · by_cases h1 : fname = "send_message" ∧
            (FunctionExecutor.execute st.exec fname args).1.1 = "success"
        · simp only [heartbeatAux, hl, ht]
          rw [if_pos h1]
          dsimp only
          exact ⟨by omega, fun hst => absurd hst (by decide)⟩
        · by_cases h2 : should_continue_heartbeat fname = false
          · have hfn : fname = "send_message" := bne_false_eq fname h2
            simp only [heartbeatAux, hl, ht]
            rw [if_neg h1, if_pos h2]
            dsimp only [maxIterationsResult]
            refine ⟨by omega, fun _ => ⟨rfl, Or.inr ?_⟩⟩
            have hbind : argsBindOk "send_message" args = false := by
              rcases hbb : argsBindOk "send_message" args with _ | _
              · rfl
              · exfalso
                exact h1 ⟨hfn, by
                  rw [hfn]
                  exact (execute_send_message_status st.exec args).mpr hbb⟩
            have harith : iteration + 1 - 1 = iteration := by omega
            rw [harith]
            refine ⟨resp, args, hl, ?_, hbind⟩
            rw [ht, hfn]
          · simp only [heartbeatAux, hl, ht]
            rw [if_neg h1, if_neg h2]
            dsimp only
            exact heartbeat_combine cnt llm fuel iteration _ (ih _ (iteration + 1) (by omega))

/-- **C5 (amended).** Per user turn, the heartbeat loop makes at most
`max_iterations = 10` LLM calls.  However, the `"max_iterations"` status is
*not* reserved for the budget-exceeded case: it is returned either when the
cap is reached, or when a `send_message` call fails (execution status not
`"success"`, e.g. bad argument shape) — the failed send breaks the loop and
falls through to the same `max_iterations` return, with `iterations` equal to
the number of LLM calls made so far (possibly 1). -/
theorem C5_heartbeat (cnt : String → Nat) (llm : Nat → LLMOutcome)
    (st : AgentState) (um : Option String) :
    (MemGPTAgent.step cnt llm st um).2.2 ≤ max_iterations ∧
    ((MemGPTAgent.step cnt llm st um).1.status = "max_iterations" →
      (MemGPTAgent.step cnt llm st um).1.iterations =
        some (MemGPTAgent.step cnt llm st um).2.2 ∧
      ((MemGPTAgent.step cnt llm st um).2.2 = max_iterations ∨
        failedSendAt llm ((MemGPTAgent.step cnt llm st um).2.2 - 1))) := by
  have key : ∀ st' : AgentState,
      (heartbeatAux cnt llm max_iterations st' 0).2.2 ≤ max_iterations ∧
      ((heartbeatAux cnt llm max_iterations st' 0).1.status = "max_iterations" →
        (heartbeatAux cnt llm max_iterations st' 0).1.iterations =
          some (heartbeatAux cnt llm max_iterations st' 0).2.2 ∧
        ((heartbeatAux cnt llm max_iterations st' 0).2.2 = max_iterations ∨
          failedSendAt llm ((heartbeatAux cnt llm max_iterations st' 0).2.2 - 1))) := by
    intro st'
    have h := heartbeatAux_spec cnt llm max_iterations st' 0 (by omega)
    simpa using h
  unfold MemGPTAgent.step
  cases um with
  | none => exact key st
  | some m =>
    by_cases hm : m = ""
    · dsimp only
      rw [if_pos hm]
      exact key st
    · dsimp only
      rw [if_neg hm]
      exact key _

unseal Rat.mul Rat.inv in
/-- **C5 (counterexample).** An LLM that calls `send_message` with a wrongly
named argument: `execute` reports an error, the loop breaks, and `step`
returns status `"max_iterations"` after a single LLM call — the status is not
reserved for the 10-iteration budget-exceeded case. -/
theorem C5_counterexample :
    (MemGPTAgent.step String.length llmBadSend agentState0 (some "hello")).1.status
        = "max_iterations" ∧
    (MemGPTAgent.step String.length llmBadSend agentState0 (some "hello")).1.iterations
        = some 1 ∧
    (MemGPTAgent.step String.length llmBadSend agentState0 (some "hello")).2.2 = 1 := by
  refine ⟨?_, ?_, ?_⟩ <;> decide

unseal Rat.mul Rat.inv in
/-- **C5 (witness).** The amended theorem applied to the failed-send LLM at a
fresh agent state, its hypothesis discharged by computation. -/
theorem C5_witness :
    (MemGPTAgent.step String.length llmBadSend agentState0 (some "hi")).1.iterations =
      some (MemGPTAgent.step String.length llmBadSend agentState0 (some "hi")).2.2 ∧
    ((MemGPTAgent.step String.length llmBadSend agentState0 (some "hi")).2.2 =
        max_iterations ∨
      failedSendAt llmBadSend
        ((MemGPTAgent.step String.length llmBadSend agentState0 (some "hi")).2.2 - 1)) :=
  (C5_heartbeat String.length llmBadSend agentState0 (some "hi")).2 (by decide)

end MemGPT
